import Mathlib

set_option maxRecDepth 8000
set_option maxHeartbeats 1000000

/-!
Verification development for the bank-statement extraction engine
(`app/services/scraper.py` together with the layout profiles
`app/bank_layouts/hdfc.py` and `app/bank_layouts/union_bank.py`).

Strings are modelled as lists of characters; the statements under scrutiny
live in the ASCII range, where Python's `str.lower`, `str.strip`, `isalpha`,
`isdigit` and the `\s` regex class agree with the character functions used
here.  Page coordinates, which the token source reports as floats, are
modelled as rationals (all concrete inputs have exact decimal coordinates).
Each regular expression of the source is compiled by hand into an
executable matcher that reproduces the leftmost-match/greedy semantics of
Python `re` on the pattern in question.
-/

namespace PdfScraper

/-- Python strings as character lists. -/
abbrev Str := List Char

/-- Coerce a Lean string literal into the character-list model. -/
def str (s : String) : Str := s.toList

/-- Python regex `\s` / `str.strip` whitespace (ASCII range). -/
def isWsChar (c : Char) : Bool :=
  c = ' ' || c = '\t' || c = '\n' || c = '\r' || c = Char.ofNat 11 || c = Char.ofNat 12

/-- Drop a maximal trailing run of characters satisfying `p`. -/
def dropTrailing (p : Char → Bool) (s : Str) : Str :=
  (s.reverse.dropWhile p).reverse

/-- Python `str.strip()`. -/
def pyStrip (s : Str) : Str :=
  dropTrailing isWsChar (s.dropWhile isWsChar)

/-- Python `str.lower()` (ASCII). -/
def toLowerStr (s : Str) : Str := s.map Char.toLower

/-- Case-insensitive prefix test (first argument is the needle). -/
def ciPre : Str → Str → Bool
  | [], _ => true
  | _ :: _, [] => false
  | c :: cs, x :: xs => (c.toLower = x.toLower) && ciPre cs xs

/-- Python `needle in hay` substring test (case sensitive). -/
def hasSub (hay needle : Str) : Bool :=
  match hay with
  | [] => needle.isEmpty
  | _ :: t => needle.isPrefixOf hay || hasSub t needle

/-- `" ".join(...)` over token texts. -/
def joinSpace (xs : List Str) : Str := List.intercalate [' '] xs

/-- Length of the run of characters satisfying `p` at the head of `s`. -/
def runLen (p : Char → Bool) (s : Str) : Nat := (s.takeWhile p).length

/-- Generic leftmost scan-and-replace driver shared by the hand-compiled
regex substitutions.  `m` reports, at each suffix, a match length (≥ 1)
and replacement; scanning resumes after the consumed characters, exactly
as `re.sub` / `str.replace` resume after a match.  The fuel argument is
`length + 1`, enough because every step consumes at least one character. -/
def scanSub (m : Str → Option (Nat × Str)) : Nat → Str → Str
  | 0, _ => []
  | _ + 1, [] => []
  | fuel + 1, x :: xs =>
    match m (x :: xs) with
    | some (n + 1, rep) => rep ++ scanSub m fuel (List.drop (n + 1) (x :: xs))
    | _ => x :: scanSub m fuel xs

/-- Entry point for the scan-and-replace driver. -/
def subst (m : Str → Option (Nat × Str)) (s : Str) : Str :=
  scanSub m (s.length + 1) s

/-- Matcher for the tail of the OCR de-spacing pattern
`c0(\s?c1)(\s?c2)...` (case-insensitive, one optional whitespace between
consecutive letters).  Returns the number of consumed characters. -/
def despaceTail : Str → Str → Option Nat
  | [], _ => some 0
  | _ :: _, [] => none
  | c :: cs, x :: xs =>
    if isWsChar x then
      match xs with
      | y :: ys => if c.toLower = y.toLower then (despaceTail cs ys).map (· + 2) else none
      | [] => none
    else if c.toLower = x.toLower then (despaceTail cs xs).map (· + 1)
    else none

/-- Match the full de-spacing pattern for vocabulary word `w` at the head
of `s` (the first letter carries no optional whitespace). -/
def despaceMatch (w : Str) (s : Str) : Option Nat :=
  match w, s with
  | c :: cs, x :: xs =>
    if c.toLower = x.toLower then (despaceTail cs xs).map (· + 1) else none
  | _, _ => none

/-- `re.sub(r'\s?'.join(list(w)), w, val, flags=re.I)`. -/
def subDespace (w : Str) (s : Str) : Str :=
  subst (fun t => (despaceMatch w t).map (fun n => (n, w))) s

/-- `[A-Z0-9]` character class of the identifier-joining patterns. -/
def isUpAl (c : Char) : Bool := ('A' ≤ c && c ≤ 'Z') || c.isDigit

/-- Matcher for `([A-Z0-9]{m1-ish})\s+([A-Z0-9]{m2,})` at the head of `s`.
`m1` is the minimal total length of the first group and `d1` demands that
it end in a digit (the `[A-Z0-9]{3,}[0-9]` variant); the groups are the
maximal alphanumeric runs, as forced by greediness against `\s+`. -/
def joinMatch (m1 : Nat) (d1 : Bool) (m2 : Nat) (s : Str) : Option (Nat × Str) :=
  let r1 := s.takeWhile isUpAl
  if m1 ≤ r1.length && (!d1 || (match r1.getLast? with
      | some c => c.isDigit
      | none => false)) then
    let s1 := s.drop r1.length
    let w := s1.takeWhile isWsChar
    if 1 ≤ w.length then
      let r2 := (s1.drop w.length).takeWhile isUpAl
      if m2 ≤ r2.length then some (r1.length + w.length + r2.length, r1 ++ r2) else none
    else none
  else none

/-- `re.sub` over the identifier-joining pattern. -/
def subJoin (m1 : Nat) (d1 : Bool) (m2 : Nat) (s : Str) : Str :=
  subst (joinMatch m1 d1 m2) s

/-- Python `str.replace(lit, rep)` (case sensitive, all occurrences). -/
def replaceAll (lit rep : Str) (s : Str) : Str :=
  subst (fun t => if lit.isPrefixOf t && !lit.isEmpty then some (lit.length, rep) else none) s

/-- `re.sub(re.escape(k), "", val, flags=re.IGNORECASE)`. -/
def removeCI (k : Str) (s : Str) : Str :=
  subst (fun t => if ciPre k t && !k.isEmpty then some (k.length, [])  else none) s

/-- `re.sub(r'\s+', ' ', val)`: collapse maximal whitespace runs. -/
def collapseWs (s : Str) : Str :=
  subst (fun t => match t with
    | x :: _ => if isWsChar x then some ((t.takeWhile isWsChar).length, [' ']) else none
    | [] => none) s

/-- The `[,\-_\s]` class stripped from trailing positions. -/
def isTrailPunct (c : Char) : Bool := c = ',' || c = '-' || c = '_' || isWsChar c

/-- Truncate at the first case-insensitive occurrence of any pattern in
`pats` (`re.split(alternation, val, flags=re.I)[0]`, and also
`re.sub(r'(a|b).*', '', val, flags=re.I)` for single-line input). -/
def truncAtCI (pats : List Str) : Str → Str
  | [] => []
  | x :: xs => if pats.any (fun p => ciPre p (x :: xs)) then [] else x :: truncAtCI pats xs

/-- `/` or `-` date separators. -/
def isSep (c : Char) : Bool := c = '/' || c = '-'

/-- `re.match` of the HDFC date pattern: one or two digits, a separator
(slash or dash), one or two digits, a separator, two to four digits,
matched at the head of `s`. -/
def hdfcDateAt (s : Str) : Bool :=
  let n1 := runLen Char.isDigit s
  (1 ≤ n1 && n1 ≤ 2) &&
    (match s.drop n1 with
     | c :: r1 =>
       isSep c &&
         (let n2 := runLen Char.isDigit r1
          (1 ≤ n2 && n2 ≤ 2) &&
            (match r1.drop n2 with
             | c2 :: r2 => isSep c2 && decide (2 ≤ runLen Char.isDigit r2)
             | [] => false))
     | [] => false)

/-- `re.match` of the Union Bank date pattern: exactly two digits, a
separator (slash or dash), two digits, a separator, two to four digits. -/
def unionDateAt (s : Str) : Bool :=
  (2 ≤ runLen Char.isDigit s) &&
    (match s.drop 2 with
     | c :: r1 =>
       isSep c && (2 ≤ runLen Char.isDigit r1 : Bool) &&
         (match r1.drop 2 with
          | c2 :: r2 => isSep c2 && decide (2 ≤ runLen Char.isDigit r2)
          | [] => false)
     | [] => false)

/-- `re.search`: does `p` match at some position of `s`? -/
def searchAt (p : Str → Bool) : Str → Bool
  | [] => p []
  | l@(_ :: t) => p l || searchAt p t

/-- Full match of the bare-clock pattern `^\d{1,2}:\d{2}(:\d{2})?$`. -/
def clockAt (s : Str) : Bool :=
  let n1 := runLen Char.isDigit s
  (1 ≤ n1 && n1 ≤ 2) &&
    (match s.drop n1 with
     | ':' :: r1 =>
       (match r1 with
        | a :: b :: rest =>
          a.isDigit && b.isDigit &&
            (rest.isEmpty ||
              (match rest with
               | ':' :: c :: d :: [] => c.isDigit && d.isDigit
               | _ => false))
        | _ => false)
     | _ => false)

/-- A finalized or in-flight record: an insertion-ordered mapping from
column keys to accumulated strings (Python `dict`). -/
abbrev Rec := List (Str × Str)

/-- `record.get(key, "")`. -/
def getA : Rec → Str → Str
  | [], _ => []
  | (k, v) :: t, key => if k = key then v else getA t key

/-- `record.get(key)` (`None` when absent). -/
def lookupA : Rec → Str → Option Str
  | [], _ => none
  | (k, v) :: t, key => if k = key then some v else lookupA t key

/-- `record[key] = v`: replace in place, append when the key is new. -/
def setA : Rec → Str → Str → Rec
  | [], key, v => [(key, v)]
  | (k, w) :: t, key, v => if k = key then (key, v) :: t else (k, w) :: setA t key v

/-- `key in record`. -/
def hasKey (r : Rec) (k : Str) : Bool := (lookupA r k).isSome

/-- A positioned text token `{text, x0, x1, top}` from the token source. -/
structure Token where
  text : Str
  x0 : Rat
  x1 : Rat
  top : Rat
deriving DecidableEq

/-- The column table: ordered `(name, x_start, x_end)` triples. -/
abbrev Cols := List (Str × Rat × Rat)

/-- The pieces of a bank layout module consumed by `GenericBankEngine`. -/
structure Layout where
  columns : Cols
  headerAliases : List (Str × List Str)
  headerYMax : Rat
  footerFrac : Rat
  continuationGap : Rat
  noiseKeywords : List Str
  startKeywords : List Str
  dateMatch : Str → Bool
  dateSearch : Str → Bool
  cleanData : Str → Str → Str
  postProcess : Rec → Rec
  normMap : List (Str × Str)

namespace hdfc

/-- `COLUMNS` of `bank_layouts/hdfc.py`. -/
def COLUMNS : Cols :=
  [(str "Date", 0, 68), (str "Narration", 68, 260), (str "Chq./Ref.No.", 260, 350),
   (str "ValueDt", 350, 410), (str "WithdrawalAmt", 410, 490), (str "DepositAmt", 490, 560),
   (str "ClosingBalance", 560, 850)]

/-- `HEADER_ALIASES` of `bank_layouts/hdfc.py`. -/
def HEADER_ALIASES : List (Str × List Str) :=
  [(str "Date", [str "Date", str "Txn Date", str "date"]),
   (str "Narration", [str "Narration", str "Description", str "Particulars", str "narration"]),
   (str "Chq./Ref.No.", [str "Chq./Ref.No.", str "Ref No", str "Cheque No", str "Reference"]),
   (str "ValueDt", [str "Value Dt", str "Value Date"]),
   (str "WithdrawalAmt", [str "Withdrawal Amt", str "Debit", str "Withdrawal"]),
   (str "DepositAmt", [str "Deposit Amt", str "Credit", str "Deposit"]),
   (str "ClosingBalance", [str "Closing Balance", str "Balance", str "closingbalance"])]

/-- `NORMALIZATION_MAP` of `bank_layouts/hdfc.py`. -/
def NORMALIZATION_MAP : List (Str × Str) :=
  [(str "Date", str "date"), (str "Narration", str "Narration"),
   (str "Chq./Ref.No.", str "Chq./Ref.No."), (str "ValueDt", str "ValueDt"),
   (str "WithdrawalAmt", str "Withdraw"), (str "DepositAmt", str "Deposit"),
   (str "ClosingBalance", str "ClosingBalance")]

/-- `TRANSACTION_START_KEYWORDS` of `bank_layouts/hdfc.py`. -/
def TRANSACTION_START_KEYWORDS : List Str :=
  [str "rtgs", str "imps", str "upi", str "neft", str "chqdep"]

/-- `NOISE_KEYWORDS` of `bank_layouts/hdfc.py`. -/
def NOISE_KEYWORDS : List Str :=
  [str "closing balance includes", str "closingbalanceincludes",
   str "contents of this statement", str "contentsofthisstatement",
   str "registered office", str "registeredoffice",
   str "gstin", str "generated on", str "requesting branch",
   str "this is a computer generated", str "thisisacomputergenerated",
   str "page no", str "hdfc bank", str "hdfcbank", str "stateaccountreceipt",
   str "fundsearmarked", str "statutorydisclaimer", str "disclaimer"]

/-- The OCR-splittable vocabulary of `clean_data` for `Narration`. -/
def VOCAB : List Str :=
  [str "NETBANK", str "PHONE", str "HDFCBANK", str "PAYMENT", str "FROM"]

/-- Characters kept by the monetary regex: everything except the class
complementary to digits, decimal point and comma. -/
def moneyKeep : Char → Bool := fun c => c.isDigit || c = '.' || c = ','

/-- `clean_data` of `bank_layouts/hdfc.py`. -/
def clean_data (cat val : Str) : Str :=
  if val.isEmpty then []
  else if cat = str "Narration" then
    let v := VOCAB.foldl (fun v w => subDespace w v) val
    let v := subJoin 3 false 8 v
    let v := subJoin 8 false 3 v
    let v := replaceAll (str "ULTISTATECOOP") (str "MULTISTATE COOP") v
    let v := replaceAll (str "SOLERPLY") (str "SOLAR SUPPLY") v
    let v := NOISE_KEYWORDS.foldl (fun v k => removeCI k v) v
    let v := if hasSub v (str "RegisteredOffice") || hasSub v (str "HDFCBankHouse") ||
        hasSub v (str "*Closingbalance") then
        truncAtCI [str "RegisteredOffice", str "HDFCBankHouse", str "*Closingbalance"] v
      else v
    let v := pyStrip (collapseWs v)
    dropTrailing isTrailPunct v
  else if cat = str "WithdrawalAmt" ∨ cat = str "DepositAmt" ∨ cat = str "ClosingBalance" then
    if val.any Char.isAlpha then [] else pyStrip (val.filter moneyKeep)
  else if cat = str "Chq./Ref.No." then
    let v := truncAtCI [str "GeneratedBy", str "RequestingBranchCode"] val
    let v := dropTrailing isTrailPunct v
    let v := v.filter (fun c => !isWsChar c)
    pyStrip v
  else pyStrip val

/-- `post_process_record` of `bank_layouts/hdfc.py`: synchronize `Date`
and `ValueDt` when exactly one is missing. -/
def post_process_record (r : Rec) : Rec :=
  let dt := getA r (str "Date")
  let vdt := getA r (str "ValueDt")
  if ¬dt.isEmpty ∧ vdt.isEmpty then setA r (str "ValueDt") dt
  else if ¬vdt.isEmpty ∧ dt.isEmpty then setA r (str "Date") vdt
  else r

end hdfc

namespace union_bank

/-- `NORMALIZATION_MAP` of `bank_layouts/union_bank.py`. -/
def NORMALIZATION_MAP : List (Str × Str) :=
  [(str "Date", str "date"), (str "Remarks", str "Remarks"),
   (str "Tran Id-1", str "Tran Id-1"), (str "Instr. ID", str "Instr. ID"),
   (str "UTR Number", str "UTR Number"), (str "Withdrawals", str "Withdrawal"),
   (str "Deposits", str "Deposit"), (str "Balance", str "balance")]

/-- `NOISE_KEYWORDS` of `bank_layouts/union_bank.py`. -/
def NOISE_KEYWORDS : List Str :=
  [str "for any queries", str "customer service", str "this is a system generated",
   str "no signature", str "avail our loan", str "missed call", str "sms", str "discrepancy",
   str "page no", str "union bank", str "statement of account", str "generated on",
   str "missed call at", str "uloan", str "computer generated", str "visit our website"]

/-- The OCR-splittable vocabulary of `clean_data` for `Remarks`. -/
def VOCAB : List Str :=
  [str "NETBANK", str "PHONE", str "HDFCBANK", str "PAYMENT", str "FROM", str "COLLECTION"]

/-- Characters kept by the monetary regex: digits, decimal point, comma
and the minus sign. -/
def moneyKeep : Char → Bool := fun c => c.isDigit || c = '.' || c = ',' || c = '-'

/-- `clean_data` of `bank_layouts/union_bank.py`. -/
def clean_data (cat val : Str) : Str :=
  if val.isEmpty then []
  else if cat = str "Remarks" then
    let v := VOCAB.foldl (fun v w => subDespace w v) val
    let v := subJoin 4 true 8 v
    let v := subJoin 9 true 3 v
    let v := replaceAll (str "ULTISTATECOOP") (str "MULTISTATE COOP") v
    let v := replaceAll (str "SOLERPLY") (str "SOLAR SUPPLY") v
    let v := NOISE_KEYWORDS.foldl (fun v k => removeCI k v) v
    let v := pyStrip (collapseWs v)
    pyStrip (dropTrailing isTrailPunct v)
  else if cat = str "Withdrawals" ∨ cat = str "Deposits" ∨ cat = str "Balance" then
    if val.any Char.isAlpha then [] else pyStrip (val.filter moneyKeep)
  else if cat = str "Tran Id-1" ∨ cat = str "UTR Number" ∨ cat = str "Date" then
    let v := if cat = str "Tran Id-1" ∨ cat = str "UTR Number" then
        val.filter (fun c => !isWsChar c)
      else val
    pyStrip v
  else pyStrip val

end union_bank

/-- The HDFC layout as loaded by `GenericBankEngine.__init__` (with the
`PAGE_RULES` values of `bank_layouts/hdfc.py`). -/
def hdfcLayout : Layout where
  columns := hdfc.COLUMNS
  headerAliases := hdfc.HEADER_ALIASES
  headerYMax := 200
  footerFrac := 9/10
  continuationGap := 40
  noiseKeywords := hdfc.NOISE_KEYWORDS
  startKeywords := hdfc.TRANSACTION_START_KEYWORDS
  dateMatch := hdfcDateAt
  dateSearch := searchAt hdfcDateAt
  cleanData := hdfc.clean_data
  postProcess := hdfc.post_process_record
  normMap := hdfc.NORMALIZATION_MAP

/-- The always-blocked phrases of `is_line_noise`. -/
def criticalNoise : List Str :=
  [str "registered office", str "gstin", str "contents of this statement",
   str "for any queries", str "customer service"]

/-- `GenericBankEngine.is_line_noise`. -/
def is_line_noise (L : Layout) (lineTextArg : Str) (top pageHeight : Rat) : Bool :=
  let lower := toLowerStr lineTextArg
  let footerThreshold := pageHeight * L.footerFrac
  if decide (footerThreshold < top) && L.noiseKeywords.any (fun k => hasSub lower k) then true
  else if 2 ≤ L.noiseKeywords.countP (fun k => hasSub lower k) then true
  else if criticalNoise.any (fun k => hasSub lower k) then true
  else false

/-- `GenericBankEngine.is_transaction_start` (the empty-line case cannot
arise: the line builder only emits non-empty lines). -/
def is_transaction_start (L : Layout) (line : List Token) (lineTextArg : Str) : Bool :=
  match line with
  | [] => false
  | t :: _ =>
    let firstWord := pyStrip t.text
    let lower := toLowerStr lineTextArg
    if clockAt firstWord then false
    else if L.dateMatch firstWord && decide (t.x0 < 120) then true
    else if L.dateSearch lineTextArg && L.startKeywords.any (fun k => hasSub lower k) &&
        decide (t.x0 < 150) then true
    else false

/-- The column of greatest positive horizontal overlap with a token
(first declared column wins ties, since only strictly greater overlap
replaces the running best). -/
def bestCol (cols : Cols) (w : Token) : Option Str :=
  (cols.foldl (fun (acc : Rat × Option Str) c =>
      let ov := min w.x1 c.2.2 - max w.x0 c.2.1
      if acc.1 < ov then (ov, some c.1) else acc) ((0 : Rat), none)).2

/-- The flat row of a line: per column, the space-joined, stripped texts
of the tokens assigned to that column. -/
def flatRow (cols : Cols) (line : List Token) : Rec :=
  cols.map (fun c =>
    (c.1, pyStrip (joinSpace ((line.filter
        (fun w => decide (bestCol cols w = some c.1))).map Token.text))))

/-- `any(row_data.values())`: some token of the line was assigned to a
column (a non-empty Python list is truthy even if its strings are empty). -/
def rowAssigned (cols : Cols) (line : List Token) : Bool :=
  line.any (fun w => (bestCol cols w).isSome)

/-- The orphan-row test: a column whose raw name contains `Ref` or
`Tran Id` carries a non-empty value. -/
def rowHasRef (cols : Cols) (row : Rec) : Bool :=
  cols.any (fun c =>
    (hasSub c.1 (str "Ref") || hasSub c.1 (str "Tran Id")) && !(getA row c.1).isEmpty)

/-- The continuation merge of a flat row into the open record: per column,
a non-empty value that differs from the accumulated one is appended after
a single space (then stripped); an identical value is not duplicated. -/
def mergeVals (vals : Rec) (row : Rec) : Rec :=
  row.foldl (fun acc p =>
    if p.2.isEmpty then acc
    else if p.2 = getA acc p.1 then acc
    else setA acc p.1 (pyStrip (getA acc p.1 ++ ' ' :: p.2))) vals

/-- An open raw record: accumulated values plus the `_lt` vertical marker. -/
structure RawRec where
  vals : Rec
  lt : Rat
deriving DecidableEq

/-- The accumulator state of `extract_data`: emitted records plus the
optional open record. -/
structure AccState where
  records : List Rec
  current : Option RawRec
deriving DecidableEq

/-- Key normalization: map each raw key through `NORMALIZATION_MAP`,
keeping unmapped keys unchanged. -/
def normalizeKeys (nm : List (Str × Str)) (r : Rec) : Rec :=
  r.map (fun p => ((lookupA nm p.1).getD p.1, p.2))

/-- `GenericBankEngine._finalize_record`: per-column cleaning, the
essentially-empty test, bank post-processing and key normalization. -/
def finalize_record (L : Layout) (r : RawRec) : Option Rec :=
  let cleaned := (r.vals.filter (fun p => L.columns.any (fun c => decide (c.1 = p.1)))).map
    (fun p => (p.1, L.cleanData p.1 p.2))
  let remarks :=
    let n := getA cleaned (str "Narration")
    if n.isEmpty then getA cleaned (str "Remarks") else n
  let hasRef := L.columns.any (fun c =>
    (hasSub c.1 (str "Ref") || hasSub c.1 (str "Tran Id") || hasSub c.1 (str "UTR")) &&
      !(getA cleaned c.1).isEmpty)
  let hasMoney := L.columns.any (fun c =>
    (hasSub c.1 (str "Amt") || hasSub c.1 (str "Withdrawal") || hasSub c.1 (str "Deposit") ||
        hasSub c.1 (str "Balance")) && !(getA cleaned c.1).isEmpty)
  if remarks.isEmpty && !hasRef && !hasMoney then none
  else
    let pp := L.postProcess cleaned
    if !L.normMap.isEmpty && !pp.isEmpty then some (normalizeKeys L.normMap pp) else some pp

/-- Finalize the open record, emitting it when non-null. -/
def finalizeOpt (L : Layout) : Option RawRec → List Rec
  | none => []
  | some r =>
    match finalize_record L r with
    | none => []
    | some rec => [rec]

/-- `" ".join(w['text'] for w in line)`. -/
def lineText (line : List Token) : Str := joinSpace (line.map Token.text)

/-- One step of the accumulator state machine of `extract_data` for a
non-empty line (header-region skip, noise finalization, start, gap-bounded
continuation merge, orphan adoption). -/
def processLine (L : Layout) (pageHeight : Rat) (st : AccState) (t : Token)
    (ts : List Token) : AccState :=
  let line := t :: ts
  let text := lineText line
  let isStart := is_transaction_start L line text
  if decide (t.top < L.headerYMax) && hasSub text (str "Date") && !isStart then st
  else if is_line_noise L text t.top pageHeight && !isStart then
    { records := st.records ++ finalizeOpt L st.current, current := none }
  else
    let gap : Rat := match st.current with | some r => t.top - r.lt | none => 0
    if rowAssigned L.columns line then
      let row := flatRow L.columns line
      if isStart then
        { records := st.records ++ finalizeOpt L st.current,
          current := some { vals := row, lt := t.top } }
      else
        match st.current with
        | some r =>
          if gap < L.continuationGap then
            { records := st.records, current := some { vals := mergeVals r.vals row, lt := t.top } }
          else st
        | none =>
          if rowHasRef L.columns row then
            { records := st.records, current := some { vals := row, lt := t.top } }
          else st
    else st

/-- Stable insertion of `x` before the first strictly greater element. -/
def insertBy (lt : Token → Token → Bool) (x : Token) : List Token → List Token
  | [] => [x]
  | y :: ys => if lt x y then x :: y :: ys else y :: insertBy lt x ys

/-- Stable ascending sort (Python `list.sort`). -/
def sortStable (lt : Token → Token → Bool) (l : List Token) : List Token :=
  l.foldl (fun acc x => insertBy lt x acc) []

/-- Grouping loop of the line builder: `curRev` is the current line in
reverse; a token within `eps` of the previous token's `top` extends the
line, otherwise the line is closed (sorted by `x0`) and a new one starts. -/
def groupGo (eps : Rat) : List Token → List Token → List (List Token)
  | curRev, [] => [sortStable (fun a b => a.x0 < b.x0) curRev.reverse]
  | curRev, w :: rest =>
    match curRev with
    | last :: _ =>
      if |w.top - last.top| < eps then groupGo eps (w :: curRev) rest
      else sortStable (fun a b => a.x0 < b.x0) curRev.reverse :: groupGo eps [w] rest
    | [] => groupGo eps [w] rest

/-- The line builder of `extract_data`: sort tokens by `top` (stably),
group by vertical proximity below 3 units, sort each line by `x0`. -/
def buildLines (ws : List Token) : List (List Token) :=
  match sortStable (fun a b => a.top < b.top) ws with
  | [] => []
  | w :: rest => groupGo 3 [w] rest

/-- Process one page: build its lines and fold the accumulator over them. -/
def processPage (L : Layout) (st : AccState) (p : List Token × Rat) : AccState :=
  (buildLines p.1).foldl (fun st line =>
    match line with
    | [] => st
    | t :: ts => processLine L p.2 st t ts) st

/-- Reference-bearing keys probed by `_merge_split_records`. -/
def refColsList : List Str := [str "Chq./Ref.No.", str "Tran Id-1", str "UTR Number"]

/-- Narration-like keys probed by `_merge_split_records`. -/
def remColsList : List Str := [str "Narration", str "Remarks"]

/-- Substrings identifying monetary keys in the merger and the final
retention filter. -/
def moneySubs : List Str := [str "Amt", str "Withdrawal", str "Deposit"]

/-- `GenericBankEngine._merge_split_records`: one forward pass merging an
adjacent pair when it shares the `Date` value and a non-empty reference
value and exactly one side carries money. -/
def merge_split_records (clean : Str → Str → Str) : List Rec → List Rec
  | [] => []
  | [r] => [r]
  | curr :: nxt :: rest =>
    let moneyCols := (curr.map Prod.fst).filter (fun k => moneySubs.any (fun m => hasSub k m))
    let refKeyOpt := refColsList.find? (fun k => hasKey curr k)
    let remKey := (remColsList.find? (fun k => hasKey curr k)).getD (str "Remarks")
    let doMerge :=
      match refKeyOpt with
      | some rk =>
        hasKey curr (str "Date") &&
          decide (lookupA curr (str "Date") = lookupA nxt (str "Date")) &&
          decide (getA curr rk = getA nxt rk) && !(getA curr rk).isEmpty &&
          (moneyCols.any (fun k => !(getA curr k).isEmpty) !=
            moneyCols.any (fun k => !(getA nxt k).isEmpty))
      | none => false
    if doMerge then
      let combined := pyStrip (getA curr remKey ++ ' ' :: getA nxt remKey)
      let c1 := setA curr remKey (clean remKey combined)
      let c2 := moneyCols.foldl (fun acc mk =>
        if (getA nxt mk).isEmpty then acc else setA acc mk (getA nxt mk)) c1
      c2 :: merge_split_records clean rest
    else curr :: merge_split_records clean (nxt :: rest)

/-- The final monetary retention filter of `extract_data`: keep a record
only if some of its (normalized) keys containing `Amt`, `Withdrawal` or
`Deposit` carries a non-empty value. -/
def keepRecord (r : Rec) : Bool :=
  r.any (fun p => moneySubs.any (fun m => hasSub p.1 m) && !p.2.isEmpty)

/-- Outcome of `_calibrate_layout`: whether it raised, and the column
table afterwards. -/
structure CalibResult where
  crashed : Bool
  columns : Cols

/-- Header-candidate grouping of `_calibrate_layout` (vertical proximity
below 5 units, lines kept in top-sorted order, not re-sorted by `x0`). -/
def calibGroupGo : List Token → List Token → List (List Token)
  | curRev, [] => [curRev.reverse]
  | curRev, w :: rest =>
    match curRev with
    | last :: _ =>
      if |w.top - last.top| < 5 then calibGroupGo (w :: curRev) rest
      else curRev.reverse :: calibGroupGo [w] rest
    | [] => calibGroupGo [w] rest

/-- Per-column body of the calibration loop.  It fuzzily locates the
column's header line and computes the candidate refined bounds exactly as
the source does, but — like the source, whose update branch ends in
`pass` — never writes them back; only a raised exception (empty alias
list, or a fuzzy result that names no searchable line) is reported. -/
def calibStep (cols : Cols) (searchable : List (Str × Rat × Rat))
    (fuzz : Str → List Str → Option (Str × Nat)) (ca : Str × List Str) : Bool :=
  match ca.2 with
  | [] => true
  | a0 :: _ =>
    match fuzz a0 (searchable.map Prod.fst) with
    | none => false
    | some (found, score) =>
      if 90 < score then
        match searchable.find? (fun l => decide (l.1 = found)) with
        | none => true
        | some ml =>
          match fuzz found ca.2 with
          | none => false
          | some (_, score2) =>
            if 90 < score2 then
              match (cols.find? (fun c => decide (c.1 = ca.1))).map (fun c => c.2) with
              | none => true
              | some cur =>
                let x0 := ml.2.1
                let x1 := ml.2.2
                let newX0 := max 0 (x0 - 10)
                let newX1 := x1 + 20
                if 20 < |cur.1 - newX0| ∨ 20 < |cur.2 - newX1| then
                  let width := cur.2 - cur.1
                  let headerCenter := (x0 + x1) / 2
                  let centerX0 := max 0 (headerCenter - width / 2)
                  let _centerX1 := centerX0 + width
                  false
                else false
            else false
      else false

/-- `GenericBankEngine._calibrate_layout` over the first page's tokens,
parameterized by the external fuzzy matcher (`process.extractOne`). -/
def calibrate_layout (L : Layout) (fuzz : Str → List Str → Option (Str × Nat))
    (words : List Token) : CalibResult :=
  if L.headerAliases.isEmpty then ⟨false, L.columns⟩
  else
    let limit := L.headerYMax + 50
    let headerWords := words.filter (fun w => decide (w.top < limit))
    let lines :=
      match sortStable (fun a b => a.top < b.top) headerWords with
      | [] => []
      | w :: rest => calibGroupGo [w] rest
    let searchable := lines.map (fun l =>
      (joinSpace (l.map Token.text),
        ((l.headD { text := [], x0 := 0, x1 := 0, top := 0 }).x0,
          (l.getLastD { text := [], x0 := 0, x1 := 0, top := 0 }).x1)))
    L.headerAliases.foldl
      (fun (acc : CalibResult) ca =>
        ⟨acc.crashed || calibStep acc.columns searchable fuzz ca, acc.columns⟩)
      ⟨false, L.columns⟩

/-- The pages of an opened document: per page, its tokens and height. -/
abbrev PdfPages := List (List Token × Rat)

/-- The record sequence accumulated over all pages, flushed at
end-of-document. -/
def accumulate_records (L : Layout) (pages : PdfPages) : List Rec :=
  let st := pages.foldl (processPage L) ⟨[], none⟩
  st.records ++ finalizeOpt L st.current

/-- The record sequence of `extract_data` after the split-record merge
pass but before the monetary retention filter. -/
def merged_records (L : Layout) (pages : PdfPages) : List Rec :=
  merge_split_records L.cleanData (accumulate_records L pages)

/-- `GenericBankEngine.extract_data` over an opened document: first-page
calibration (a raised calibration error is caught by the document-level
handler, yielding the empty result), accumulation, split-record merge
and the final monetary retention filter. -/
def extract_data (L : Layout) (fuzz : Str → List Str → Option (Str × Nat))
    (pages : PdfPages) : List Rec :=
  let calibOk :=
    match pages with
    | [] => true
    | p :: _ => !(calibrate_layout L fuzz p.1).crashed
  if calibOk then (merged_records L pages).filter keepRecord else []

/-- The document-open flow of `extract_data`: `pdfplumber.open` with the
supplied password; on any failure, a second `pdfplumber.open` with an
interactively prompted password; if that also fails, the outer handler
catches the exception and returns the empty list. -/
def extract_data_entry (L : Layout) (fuzz : Str → List Str → Option (Str × Nat))
    (firstOpen promptOpen : Except Unit PdfPages) : List Rec :=
  match firstOpen with
  | .ok pages => extract_data L fuzz pages
  | .error _ =>
    match promptOpen with
    | .ok pages => extract_data L fuzz pages
    | .error _ => []

/-- A fuzzy matcher that reports no candidate (the concrete scenarios
below do not rely on fuzzy header matches). -/
def noFuzz : Str → List Str → Option (Str × Nat) := fun _ _ => none

/-- First token of Scenario A's header line. -/
def scnHHead : Token := ⟨str "Date", 10, 40, 50⟩

/-- Remaining tokens of Scenario A's header line. -/
def scnHTail : List Token :=
  [⟨str "Narration", 80, 140, 50⟩, ⟨str "Withdrawal", 415, 455, 50⟩,
   ⟨str "Amt", 460, 480, 50⟩, ⟨str "Deposit", 495, 530, 50⟩, ⟨str "Amt", 535, 555, 50⟩,
   ⟨str "Closing", 565, 605, 50⟩, ⟨str "Balance", 610, 655, 50⟩]

/-- Scenario A, header line tokens (HDFC aliases, in the header region). -/
def scnAHeader : List Token := scnHHead :: scnHTail

/-- Scenario A, data line tokens: date left of x=68, narration within
68-260, withdrawal within 410-490, balance within 560-850. -/
def scnAData : List Token :=
  [⟨str "01/04/23", 10, 60, 300⟩, ⟨str "RTGS", 70, 100, 300⟩,
   ⟨str "REF998877", 105, 170, 300⟩, ⟨str "ACME", 175, 205, 300⟩,
   ⟨str "CORP", 210, 240, 300⟩, ⟨str "500.00", 420, 470, 300⟩,
   ⟨str "1500.00", 600, 660, 300⟩]

/-- Scenario A as a one-page document of height 1000. -/
def scnAPage : List Token × Rat := (scnAHeader ++ scnAData, 1000)

/-- The normalized record that Scenario A produces before the final
monetary retention filter. -/
def scnARecord : Rec :=
  [(str "date", str "01/04/23"), (str "Narration", str "RTGSREF998877ACME CORP"),
   (str "Chq./Ref.No.", []), (str "ValueDt", str "01/04/23"),
   (str "Withdraw", str "500.00"), (str "Deposit", []),
   (str "ClosingBalance", str "1500.00")]

/-- Scenario E, first finalized (key-normalized) Union Bank record. -/
def scnERecord1 : Rec :=
  [(str "date", str "01/04/23"), (str "Remarks", str "PART ONE"),
   (str "Tran Id-1", str "UTR1234"), (str "Instr. ID", []), (str "UTR Number", []),
   (str "Withdrawal", []), (str "Deposit", []), (str "balance", [])]

/-- Scenario E, second finalized (key-normalized) Union Bank record. -/
def scnERecord2 : Rec :=
  [(str "date", str "01/04/23"), (str "Remarks", str "PART TWO"),
   (str "Tran Id-1", str "UTR1234"), (str "Instr. ID", []), (str "UTR Number", []),
   (str "Withdrawal", []), (str "Deposit", str "200.00"), (str "balance", [])]

/-- The raw (un-cleaned) flat row accumulated from Scenario A's data line,
open with `_lt = 300`. -/
def scnARaw : RawRec :=
  { vals := [(str "Date", str "01/04/23"), (str "Narration", str "RTGS REF998877 ACME CORP"),
      (str "Chq./Ref.No.", []), (str "ValueDt", []), (str "WithdrawalAmt", str "500.00"),
      (str "DepositAmt", []), (str "ClosingBalance", str "1500.00")],
    lt := 300 }

/-- Scenario B: first token of the continuation line, ten units below
Scenario A's data line. -/
def scnBHead : Token := ⟨str "CONTINUED", 80, 150, 310⟩

/-- Scenario B: remaining tokens of the continuation line. -/
def scnBTail : List Token :=
  [⟨str "PAYMENT", 155, 200, 310⟩, ⟨str "DETAILS", 205, 250, 310⟩]

/-- First token of a line that is simultaneously noise (two HDFC noise
keywords) and a transaction start (leading date left of x=120). -/
def scnNHead : Token := ⟨str "01/04/23", 10, 60, 500⟩

/-- Remaining tokens of the noise-and-start line. -/
def scnNTail : List Token :=
  [⟨str "page", 70, 100, 500⟩, ⟨str "no", 105, 115, 500⟩,
   ⟨str "hdfc", 120, 160, 500⟩, ⟨str "bank", 165, 200, 500⟩]

/-- Shared shape of the monetary cleaning branch of both `clean_data`
functions: empty passes through, any letter discards, otherwise the
keep-class filter followed by a strip. -/
def moneyClean (keep : Char → Bool) (val : Str) : Str :=
  if val.isEmpty then [] else if val.any Char.isAlpha then [] else pyStrip (val.filter keep)

/-- Modelled from the spec: for monetary columns, if the raw value
contains any alphabetic character the output is empty; else every
character except digits, decimal point, comma, and sign (minus) is
stripped, and the result is trimmed. -/
def spec_monetary_clean (val : Str) : Str :=
  if val.any Char.isAlpha then []
  else pyStrip (val.filter (fun c => c.isDigit || c = '.' || c = ',' || c = '-'))

/-- The sign-less variant forced by the HDFC source, which keeps only
digits, decimal point and comma in monetary columns. -/
def spec_monetary_clean_nosign (val : Str) : Str :=
  if val.any Char.isAlpha then []
  else pyStrip (val.filter (fun c => c.isDigit || c = '.' || c = ','))

/-
Lemma layer: strip/filter idempotence and association-list facts.
-/

theorem dropWhile_eq_self_of {p : Char → Bool} {s : Str}
    (h : ∀ c ∈ s, p c = false) : s.dropWhile p = s := by
  cases s with
  | nil => rfl
  | cons x xs => simp [List.dropWhile_cons, h x (List.mem_cons_self x xs)]

theorem head_dropWhile_false {p : Char → Bool} {s : Str} {c : Char} {t : Str}
    (h : s.dropWhile p = c :: t) : p c = false := by
  induction s with
  | nil => simp at h
  | cons x xs ih =>
    rw [List.dropWhile_cons] at h
    by_cases hx : p x
    · exact ih (by simpa [hx] using h)
    · rw [if_neg hx] at h
      injection h with h1 _
      subst h1
      simpa using hx

theorem dropWhile_idem (p : Char → Bool) (s : Str) :
    (s.dropWhile p).dropWhile p = s.dropWhile p := by
  cases hd : s.dropWhile p with
  | nil => rfl
  | cons c t =>
    have hc := head_dropWhile_false hd
    simp [List.dropWhile_cons, hc]

theorem dropTrailing_eq_self_of {p : Char → Bool} {s : Str}
    (h : ∀ c ∈ s, p c = false) : dropTrailing p s = s := by
  unfold dropTrailing
  rw [dropWhile_eq_self_of (fun c hc => h c (List.mem_reverse.mp hc)), List.reverse_reverse]

theorem dropTrailing_idem (p : Char → Bool) (s : Str) :
    dropTrailing p (dropTrailing p s) = dropTrailing p s := by
  unfold dropTrailing
  rw [List.reverse_reverse, dropWhile_idem]

theorem dropTrailing_isPre (p : Char → Bool) (s : Str) :
    List.IsPrefix (dropTrailing p s) s := by
  have hsuf : List.IsSuffix (s.reverse.dropWhile p) s.reverse := List.dropWhile_suffix p
  have := List.reverse_prefix.mpr hsuf
  simpa [dropTrailing] using this

theorem mem_dropTrailing {p : Char → Bool} {s : Str} {c : Char}
    (h : c ∈ dropTrailing p s) : c ∈ s :=
  (dropTrailing_isPre p s).sublist.mem h

theorem mem_pyStrip {s : Str} {c : Char} (h : c ∈ pyStrip s) : c ∈ s :=
  (List.dropWhile_sublist isWsChar).mem (mem_dropTrailing h)

theorem pyStrip_eq_self_of {s : Str} (h : ∀ c ∈ s, isWsChar c = false) :
    pyStrip s = s := by
  unfold pyStrip
  rw [dropWhile_eq_self_of h, dropTrailing_eq_self_of h]

theorem pyStrip_idem (s : Str) : pyStrip (pyStrip s) = pyStrip s := by
  unfold pyStrip
  have hmid : (dropTrailing isWsChar (s.dropWhile isWsChar)).dropWhile isWsChar =
      dropTrailing isWsChar (s.dropWhile isWsChar) := by
    cases hd : dropTrailing isWsChar (s.dropWhile isWsChar) with
    | nil => rfl
    | cons c t =>
      have hpre : List.IsPrefix (c :: t) (s.dropWhile isWsChar) := by
        rw [← hd]; exact dropTrailing_isPre _ _
      obtain ⟨u, hu⟩ := hpre
      have hc : isWsChar c = false := head_dropWhile_false (s := s) hu.symm
      simp [List.dropWhile_cons, hc]
  rw [hmid, dropTrailing_idem]

theorem moneyClean_idem (keep : Char → Bool) (val : Str) :
    moneyClean keep (moneyClean keep val) = moneyClean keep val := by
  unfold moneyClean
  by_cases h0 : val.isEmpty
  · simp [h0]
  by_cases ha : val.any Char.isAlpha
  · simp [h0, ha]
  simp only [h0, ha, if_false, Bool.false_eq_true]
  set r := pyStrip (val.filter keep) with hr
  by_cases hre : r.isEmpty
  · have : r = [] := by simpa [List.isEmpty_iff] using hre
    simp [this]
  have hmem : ∀ c ∈ r, c ∈ val.filter keep := fun c hc => mem_pyStrip (hr ▸ hc)
  have halpha : r.any Char.isAlpha = false := by
    rw [Bool.eq_false_iff]
    intro hcon
    obtain ⟨c, hc, hcal⟩ := List.any_eq_true.mp hcon
    have hval : c ∈ val := List.mem_of_mem_filter (hmem c hc)
    have := List.any_eq_true.mpr ⟨c, hval, hcal⟩
    exact ha this
  have hfilter : r.filter keep = r :=
    List.filter_eq_self.mpr (fun c hc => List.of_mem_filter (hmem c hc))
  have hstrip : pyStrip r = r := by rw [hr, pyStrip_idem]
  simp [hre, halpha, hfilter, hstrip]

theorem getA_setA_same (r : Rec) (k : Str) (v : Str) : getA (setA r k v) k = v := by
  induction r with
  | nil => simp [setA, getA]
  | cons p t ih =>
    by_cases h : p.1 = k
    · simp [setA, getA, h]
    · simp [setA, getA, h, ih]

theorem getA_setA_ne (r : Rec) (k v : Str) {k2 : Str} (h : k2 ≠ k) :
    getA (setA r k v) k2 = getA r k2 := by
  have hne : k ≠ k2 := Ne.symm h
  induction r with
  | nil => simp [setA, getA, hne]
  | cons p t ih =>
    by_cases hp : p.1 = k
    · simp [setA, getA, hp, hne]
    · simp [setA, getA, hp, ih]

theorem lookupA_none_of_not_mem {r : Rec} {k : Str} (h : k ∉ r.map Prod.fst) :
    lookupA r k = none := by
  induction r with
  | nil => rfl
  | cons p t ih =>
    simp only [List.map_cons, List.mem_cons, not_or] at h
    simp [lookupA, Ne.symm h.1, ih h.2]

theorem getA_eq_lookupA (r : Rec) (k : Str) : getA r k = (lookupA r k).getD [] := by
  induction r with
  | nil => rfl
  | cons p t ih =>
    by_cases h : p.1 = k <;> simp [getA, lookupA, h, ih]

theorem getA_mergeVals (row : Rec) :
    ∀ (vals : Rec), (row.map Prod.fst).Nodup → ∀ k,
      getA (mergeVals vals row) k =
        match lookupA row k with
        | none => getA vals k
        | some v =>
          if v.isEmpty then getA vals k
          else if v = getA vals k then getA vals k
          else pyStrip (getA vals k ++ ' ' :: v) := by
  induction row with
  | nil => intro vals _ k; rfl
  | cons p rest ih =>
    intro vals hnd k
    rw [List.map_cons, List.nodup_cons] at hnd
    obtain ⟨hout, hndr⟩ := hnd
    have hstep : mergeVals vals (p :: rest) =
        mergeVals (if p.2.isEmpty then vals
          else if p.2 = getA vals p.1 then vals
          else setA vals p.1 (pyStrip (getA vals p.1 ++ ' ' :: p.2))) rest := by
      simp only [mergeVals, List.foldl_cons]
    by_cases hk : p.1 = k
    · subst hk
      have hrest : lookupA rest p.1 = none :=
        lookupA_none_of_not_mem hout
      rw [hstep, ih _ hndr, hrest]
      simp only [lookupA, if_pos rfl]
      by_cases h2 : p.2.isEmpty
      · simp [h2]
      by_cases h3 : p.2 = getA vals p.1
      · simp [h2, h3]
      · simp [h2, h3, getA_setA_same]
    · have hlook : lookupA (p :: rest) k = lookupA rest k := by
        simp [lookupA, hk]
      have hsame : getA (if p.2.isEmpty then vals
          else if p.2 = getA vals p.1 then vals
          else setA vals p.1 (pyStrip (getA vals p.1 ++ ' ' :: p.2))) k = getA vals k := by
        by_cases h2 : p.2.isEmpty
        · simp [h2]
        by_cases h3 : p.2 = getA vals p.1
        · simp [h2, h3]
        · simp [h2, h3, getA_setA_ne _ _ _ (fun hc => hk hc.symm)]
      rw [hstep, ih _ hndr, hlook, hsame]

theorem flatRow_keys (cols : Cols) (line : List Token) :
    (flatRow cols line).map Prod.fst = cols.map Prod.fst := by
  simp [flatRow]

/-- Pass-through cleaning shape (`return val.strip()`). -/
def passClean (val : Str) : Str := if val.isEmpty then [] else pyStrip val

/-- Reference cleaning shape of the Union Bank profile (remove internal
whitespace, then strip). -/
def refClean (val : Str) : Str :=
  if val.isEmpty then [] else pyStrip (val.filter (fun c => !isWsChar c))

theorem passClean_idem (val : Str) : passClean (passClean val) = passClean val := by
  unfold passClean
  by_cases h0 : val.isEmpty
  · simp [h0]
  simp only [h0, Bool.false_eq_true, if_false]
  by_cases hre : (pyStrip val).isEmpty
  · have h : pyStrip val = [] := by simpa [List.isEmpty_iff] using hre
    simp [h]
  · simp [hre, pyStrip_idem]

theorem refClean_idem (val : Str) : refClean (refClean val) = refClean val := by
  unfold refClean
  by_cases h0 : val.isEmpty
  · simp [h0]
  simp only [h0, Bool.false_eq_true, if_false]
  set r := pyStrip (val.filter (fun c => !isWsChar c)) with hr
  by_cases hre : r.isEmpty
  · have h : r = [] := by simpa [List.isEmpty_iff] using hre
    simp [h]
  have hfilter : r.filter (fun c => !isWsChar c) = r :=
    List.filter_eq_self.mpr
      (fun c hc => (List.mem_filter.mp (mem_pyStrip (hr ▸ hc))).2)
  have hstrip : pyStrip r = r := by rw [hr, pyStrip_idem]
  simp [hre, hfilter, hstrip]

theorem hdfc_clean_wamt (val : Str) :
    hdfc.clean_data (str "WithdrawalAmt") val = moneyClean hdfc.moneyKeep val := by
  with_unfolding_all rfl

theorem hdfc_clean_damt (val : Str) :
    hdfc.clean_data (str "DepositAmt") val = moneyClean hdfc.moneyKeep val := by
  with_unfolding_all rfl

theorem hdfc_clean_cbal (val : Str) :
    hdfc.clean_data (str "ClosingBalance") val = moneyClean hdfc.moneyKeep val := by
  with_unfolding_all rfl

theorem hdfc_clean_date (val : Str) :
    hdfc.clean_data (str "Date") val = passClean val := by
  with_unfolding_all rfl

theorem hdfc_clean_vdt (val : Str) :
    hdfc.clean_data (str "ValueDt") val = passClean val := by
  with_unfolding_all rfl

theorem union_clean_wdr (val : Str) :
    union_bank.clean_data (str "Withdrawals") val = moneyClean union_bank.moneyKeep val := by
  with_unfolding_all rfl

theorem union_clean_dep (val : Str) :
    union_bank.clean_data (str "Deposits") val = moneyClean union_bank.moneyKeep val := by
  with_unfolding_all rfl

theorem union_clean_bal (val : Str) :
    union_bank.clean_data (str "Balance") val = moneyClean union_bank.moneyKeep val := by
  with_unfolding_all rfl

theorem union_clean_tran (val : Str) :
    union_bank.clean_data (str "Tran Id-1") val = refClean val := by
  with_unfolding_all rfl

theorem union_clean_utr (val : Str) :
    union_bank.clean_data (str "UTR Number") val = refClean val := by
  with_unfolding_all rfl

theorem union_clean_date (val : Str) :
    union_bank.clean_data (str "Date") val = passClean val := by
  with_unfolding_all rfl

theorem union_clean_instr (val : Str) :
    union_bank.clean_data (str "Instr. ID") val = passClean val := by
  with_unfolding_all rfl

theorem moneyClean_union_spec (val : Str) :
    moneyClean union_bank.moneyKeep val = spec_monetary_clean val := by
  cases val <;> with_unfolding_all rfl

theorem moneyClean_hdfc_nosign (val : Str) :
    moneyClean hdfc.moneyKeep val = spec_monetary_clean_nosign val := by
  cases val <;> with_unfolding_all rfl

theorem calib_fold_columns (searchable : List (Str × Rat × Rat))
    (fuzz : Str → List Str → Option (Str × Nat)) (l : List (Str × List Str)) :
    ∀ acc : CalibResult,
      (l.foldl (fun acc ca =>
        ⟨acc.crashed || calibStep acc.columns searchable fuzz ca, acc.columns⟩) acc).columns =
        acc.columns := by
  induction l with
  | nil => intro acc; rfl
  | cons x xs ih => intro acc; rw [List.foldl_cons, ih]

/-
Claim theorems.
-/

/-- C1.  The claim asserts that Scenario A (HDFC header line plus the data
line with date, narration, withdrawal and balance tokens) yields exactly one
FinalRecord retained by the monetary retention filter.  On the code this
fails: the pipeline does build a single normalized record carrying the
withdrawal amount under the normalized key `Withdraw`, but the retention
filter (which checks for the substrings `Amt`, `Withdrawal`, `Deposit`
over normalized keys) matches none of its non-empty values — `Withdraw`
contains none of the probes and the matching key `Deposit` is empty — so
`extract_data` returns zero records; moreover the narration cleaner's
identifier-joining regexes rewrite the narration to
`RTGSREF998877ACME CORP`.  This theorem evaluates the embedded pipeline at
the claim's own input. -/
theorem c1_scenario_a_filter_drops_record :
    merged_records hdfcLayout [scnAPage] = [scnARecord] ∧
    getA scnARecord (str "Withdraw") = str "500.00" ∧
    getA scnARecord (str "Deposit") = [] ∧
    keepRecord scnARecord = false ∧
    extract_data hdfcLayout noFuzz [scnAPage] = [] :=
  ⟨by with_unfolding_all rfl, by with_unfolding_all rfl, by with_unfolding_all rfl,
   by with_unfolding_all rfl, by with_unfolding_all rfl⟩

/-- C2.  The claim asserts that the split-record merger combines Scenario
E's two adjacent finalized Union Bank records (same date, same reference
`UTR1234`, deposit only on the second).  On the code this never happens:
`_merge_split_records` runs after key normalization and gates every merge
on the literal key `Date`, but normalization maps `Date` to `date`, so the
gate fails and both records pass through unmerged. -/
theorem c2_scenario_e_merge_inert :
    merge_split_records union_bank.clean_data [scnERecord1, scnERecord2] =
      [scnERecord1, scnERecord2] ∧
    hasKey scnERecord1 (str "Date") = false ∧
    lookupA union_bank.NORMALIZATION_MAP (str "Date") = some (str "date") :=
  ⟨by with_unfolding_all rfl, by with_unfolding_all rfl, by with_unfolding_all rfl⟩

/-- C3 (amended).  When opening with the supplied password fails, the
engine automatically retries once with an interactively prompted password;
extraction then behaves exactly as if that second open result were the
only one, and when it also fails the exception is caught and the empty
record list is returned — no distinct DocumentOpenError reaches the
caller. -/
theorem c3_open_failure_retry_then_empty (L : Layout)
    (fuzz : Str → List Str → Option (Str × Nat)) (r : Except Unit PdfPages) :
    extract_data_entry L fuzz (Except.error ()) r = extract_data_entry L fuzz r r := by
  cases r with
  | ok pages => rfl
  | error e => rfl

/-- C3 (counterexample).  The claim says an open failure is surfaced as an
error distinct from an empty success; in the code both produce the same
value: a failed open (with the prompted retry also failing) returns `[]`,
exactly the result of successfully opening an empty document. -/
theorem c3_open_failure_indistinct_counterexample :
    extract_data_entry hdfcLayout noFuzz (Except.error ()) (Except.error ()) = ([] : List Rec) ∧
    extract_data_entry hdfcLayout noFuzz (Except.ok []) (Except.error ()) = ([] : List Rec) :=
  ⟨rfl, by with_unfolding_all rfl⟩

/-- C4 (amended).  Field cleaning is idempotent for the monetary columns
of both bundled profiles, for Union Bank's reference and date columns, and
for the pass-through categories (`Date`, `ValueDt`, `Instr. ID`); the
claim's universal form over every column category fails for HDFC's
reference column (see the counterexample). -/
theorem c4_clean_idempotent_amended (val : Str) :
    hdfc.clean_data (str "WithdrawalAmt") (hdfc.clean_data (str "WithdrawalAmt") val) =
      hdfc.clean_data (str "WithdrawalAmt") val ∧
    hdfc.clean_data (str "DepositAmt") (hdfc.clean_data (str "DepositAmt") val) =
      hdfc.clean_data (str "DepositAmt") val ∧
    hdfc.clean_data (str "ClosingBalance") (hdfc.clean_data (str "ClosingBalance") val) =
      hdfc.clean_data (str "ClosingBalance") val ∧
    hdfc.clean_data (str "Date") (hdfc.clean_data (str "Date") val) =
      hdfc.clean_data (str "Date") val ∧
    hdfc.clean_data (str "ValueDt") (hdfc.clean_data (str "ValueDt") val) =
      hdfc.clean_data (str "ValueDt") val ∧
    union_bank.clean_data (str "Withdrawals") (union_bank.clean_data (str "Withdrawals") val) =
      union_bank.clean_data (str "Withdrawals") val ∧
    union_bank.clean_data (str "Deposits") (union_bank.clean_data (str "Deposits") val) =
      union_bank.clean_data (str "Deposits") val ∧
    union_bank.clean_data (str "Balance") (union_bank.clean_data (str "Balance") val) =
      union_bank.clean_data (str "Balance") val ∧
    union_bank.clean_data (str "Tran Id-1") (union_bank.clean_data (str "Tran Id-1") val) =
      union_bank.clean_data (str "Tran Id-1") val ∧
    union_bank.clean_data (str "UTR Number") (union_bank.clean_data (str "UTR Number") val) =
      union_bank.clean_data (str "UTR Number") val ∧
    union_bank.clean_data (str "Date") (union_bank.clean_data (str "Date") val) =
      union_bank.clean_data (str "Date") val ∧
    union_bank.clean_data (str "Instr. ID") (union_bank.clean_data (str "Instr. ID") val) =
      union_bank.clean_data (str "Instr. ID") val := by
  refine ⟨?_, ?_, ?_, ?_, ?_, ?_, ?_, ?_, ?_, ?_, ?_, ?_⟩
  · simp only [hdfc_clean_wamt]; exact moneyClean_idem _ _
  · simp only [hdfc_clean_damt]; exact moneyClean_idem _ _
  · simp only [hdfc_clean_cbal]; exact moneyClean_idem _ _
  · simp only [hdfc_clean_date]; exact passClean_idem _
  · simp only [hdfc_clean_vdt]; exact passClean_idem _
  · simp only [union_clean_wdr]; exact moneyClean_idem _ _
  · simp only [union_clean_dep]; exact moneyClean_idem _ _
  · simp only [union_clean_bal]; exact moneyClean_idem _ _
  · simp only [union_clean_tran]; exact refClean_idem _
  · simp only [union_clean_utr]; exact refClean_idem _
  · simp only [union_clean_date]; exact passClean_idem _
  · simp only [union_clean_instr]; exact passClean_idem _

/-- C4 (counterexample).  Cleaning HDFC's reference column is not
idempotent: `Generated By X` cleans to `GeneratedByX` (whitespace removal
glues the metadata-prefix words together), and a second pass then matches
the `GeneratedBy` prefix pattern and erases everything. -/
theorem c4_ref_clean_not_idempotent :
    hdfc.clean_data (str "Chq./Ref.No.") (str "Generated By X") = str "GeneratedByX" ∧
    hdfc.clean_data (str "Chq./Ref.No.")
        (hdfc.clean_data (str "Chq./Ref.No.") (str "Generated By X")) = [] ∧
    hdfc.clean_data (str "Chq./Ref.No.")
        (hdfc.clean_data (str "Chq./Ref.No.") (str "Generated By X")) ≠
      hdfc.clean_data (str "Chq./Ref.No.") (str "Generated By X") :=
  ⟨by with_unfolding_all rfl, by with_unfolding_all rfl, by with_unfolding_all decide⟩

/-- C5 (amended).  For Union Bank's monetary columns the cleaned value is
exactly as the claim describes (discard on any letter, else keep only
digits, decimal point, comma and the minus sign, then trim); for HDFC's
monetary columns the same holds except that the sign character is also
stripped — only digits, decimal point and comma survive. -/
theorem c5_monetary_clean_amended (val : Str) :
    union_bank.clean_data (str "Withdrawals") val = spec_monetary_clean val ∧
    union_bank.clean_data (str "Deposits") val = spec_monetary_clean val ∧
    union_bank.clean_data (str "Balance") val = spec_monetary_clean val ∧
    hdfc.clean_data (str "WithdrawalAmt") val = spec_monetary_clean_nosign val ∧
    hdfc.clean_data (str "DepositAmt") val = spec_monetary_clean_nosign val ∧
    hdfc.clean_data (str "ClosingBalance") val = spec_monetary_clean_nosign val := by
  refine ⟨?_, ?_, ?_, ?_, ?_, ?_⟩
  · rw [union_clean_wdr, moneyClean_union_spec]
  · rw [union_clean_dep, moneyClean_union_spec]
  · rw [union_clean_bal, moneyClean_union_spec]
  · rw [hdfc_clean_wamt, moneyClean_hdfc_nosign]
  · rw [hdfc_clean_damt, moneyClean_hdfc_nosign]
  · rw [hdfc_clean_cbal, moneyClean_hdfc_nosign]

/-- C5 (counterexample).  The claim says the sign is preserved for every
monetary column of each bundled profile; HDFC's monetary cleaner strips a
leading minus (`-500.00` cleans to `500.00`), diverging from the
spec-modelled cleaner, while Union Bank's keeps it. -/
theorem c5_sign_stripped_counterexample :
    hdfc.clean_data (str "WithdrawalAmt") (str "-500.00") = str "500.00" ∧
    union_bank.clean_data (str "Withdrawals") (str "-500.00") = str "-500.00" ∧
    spec_monetary_clean (str "-500.00") = str "-500.00" ∧
    hdfc.clean_data (str "WithdrawalAmt") (str "-500.00") ≠
      spec_monetary_clean (str "-500.00") :=
  ⟨by with_unfolding_all rfl, by with_unfolding_all rfl, by with_unfolding_all rfl,
   by with_unfolding_all decide⟩

/-- C6.  Header calibration never mutates the active column x-ranges: for
every first-page token list and every behaviour of the external fuzzy
matcher, the column descriptor set after `_calibrate_layout` equals the
set before it — the refined boundary is computed but not committed, so all
subsequent column assignment uses the profile's default ranges. -/
theorem c6_calibration_preserves_columns (L : Layout)
    (fuzz : Str → List Str → Option (Str × Nat)) (words : List Token) :
    (calibrate_layout L fuzz words).columns = L.columns := by
  unfold calibrate_layout
  by_cases h : L.headerAliases.isEmpty
  · rw [if_pos h]
  · rw [if_neg h]
    exact calib_fold_columns _ _ _ _

/-- C7.  With a record OPEN and a non-start, non-noise line (not skipped
as a header-region `Date` line, with at least one token assigned to a
column) whose gap — line top minus the open record's `lastTop` — is below
the profile's continuation gap, the flat row merges into the open record
column by column: an empty new value leaves the column unchanged, a
non-empty value identical to the accumulated one is not duplicated, a
differing value is appended after a single separating space, and `lastTop`
becomes the line's top; no record is emitted. -/
theorem c7_continuation_merges_open_record (L : Layout) (pageHeight : Rat)
    (st : AccState) (t : Token) (ts : List Token) (r : RawRec)
    (hopen : st.current = some r)
    (hstart : is_transaction_start L (t :: ts) (lineText (t :: ts)) = false)
    (hnoise : is_line_noise L (lineText (t :: ts)) t.top pageHeight = false)
    (hskip : ¬(t.top < L.headerYMax ∧ hasSub (lineText (t :: ts)) (str "Date") = true))
    (hgap : t.top - r.lt < L.continuationGap)
    (hassigned : rowAssigned L.columns (t :: ts) = true)
    (hnd : (L.columns.map Prod.fst).Nodup) :
    processLine L pageHeight st t ts =
      AccState.mk st.records
        (some (RawRec.mk (mergeVals r.vals (flatRow L.columns (t :: ts))) t.top)) ∧
    ∀ k, getA (mergeVals r.vals (flatRow L.columns (t :: ts))) k =
      (let v := getA (flatRow L.columns (t :: ts)) k
       if v.isEmpty then getA r.vals k
       else if v = getA r.vals k then getA r.vals k
       else pyStrip (getA r.vals k ++ ' ' :: v)) := by
  have hc1 : (decide (t.top < L.headerYMax) && hasSub (lineText (t :: ts)) (str "Date")) =
      false := by
    by_cases ht : t.top < L.headerYMax
    · have hd : hasSub (lineText (t :: ts)) (str "Date") = false := by
        cases hhs : hasSub (lineText (t :: ts)) (str "Date")
        · rfl
        · exact absurd ⟨ht, hhs⟩ hskip
      simp [hd]
    · simp [ht]
  constructor
  · simp only [processLine, hstart, hnoise, hopen, hassigned, Bool.not_false, Bool.and_true,
      hc1, Bool.false_and, Bool.and_false, if_false, Bool.false_eq_true, if_true]
    simp [hgap]
  · intro k
    have hnd2 : ((flatRow L.columns (t :: ts)).map Prod.fst).Nodup := by
      rw [flatRow_keys]; exact hnd
    rw [getA_mergeVals (flatRow L.columns (t :: ts)) r.vals hnd2 k]
    cases hlk : lookupA (flatRow L.columns (t :: ts)) k with
    | none =>
      simp only [getA_eq_lookupA (flatRow L.columns (t :: ts)) k, hlk, Option.getD_none]
      simp
    | some v =>
      simp only [getA_eq_lookupA (flatRow L.columns (t :: ts)) k, hlk, Option.getD_some]

/-- C7 (witness).  Scenario B: the continuation line ten units below
Scenario A's open record merges into it, extending the accumulated
narration to `RTGS REF998877 ACME CORP CONTINUED PAYMENT DETAILS` without
creating a new record. -/
theorem c7_scenario_b_witness :
    is_transaction_start hdfcLayout (scnBHead :: scnBTail) (lineText (scnBHead :: scnBTail)) =
      false ∧
    is_line_noise hdfcLayout (lineText (scnBHead :: scnBTail)) scnBHead.top 1000 = false ∧
    scnBHead.top - scnARaw.lt < hdfcLayout.continuationGap ∧
    processLine hdfcLayout 1000 ⟨[], some scnARaw⟩ scnBHead scnBTail =
      AccState.mk []
        (some (RawRec.mk (mergeVals scnARaw.vals
          (flatRow hdfcLayout.columns (scnBHead :: scnBTail))) scnBHead.top)) ∧
    getA (mergeVals scnARaw.vals (flatRow hdfcLayout.columns (scnBHead :: scnBTail)))
        (str "Narration") =
      str "RTGS REF998877 ACME CORP CONTINUED PAYMENT DETAILS" :=
  ⟨by with_unfolding_all decide, by with_unfolding_all decide, by with_unfolding_all decide,
   (c7_continuation_merges_open_record hdfcLayout 1000 ⟨[], some scnARaw⟩ scnBHead scnBTail
      scnARaw rfl (by with_unfolding_all decide) (by with_unfolding_all decide)
      (by with_unfolding_all decide) (by with_unfolding_all decide)
      (by with_unfolding_all decide) (by with_unfolding_all decide)).1,
   by with_unfolding_all decide⟩

/-- C8.  The transaction-boundary classifier returns true exactly when the
line's first token is not a bare clock time and either the first token
matches the profile's date pattern with `x0 < 120`, or the line text
contains a configured start keyword, the date pattern matches somewhere in
the line text, and the first token's `x0 < 150`. -/
theorem c8_transaction_start_classifier (L : Layout) (t : Token) (ts : List Token)
    (text : Str) :
    is_transaction_start L (t :: ts) text = true ↔
      clockAt (pyStrip t.text) = false ∧
        ((L.dateMatch (pyStrip t.text) = true ∧ t.x0 < 120) ∨
          (L.startKeywords.any (fun k => hasSub (toLowerStr text) k) = true ∧
            L.dateSearch text = true ∧ t.x0 < 150)) := by
  simp only [is_transaction_start, Bool.and_eq_true, decide_eq_true_eq]
  split_ifs with h1 h2 h3
  · simp [h1]
  · simp only [Bool.and_eq_true, decide_eq_true_eq] at h2
    simp [h1, h2]
  · simp only [Bool.and_eq_true, decide_eq_true_eq] at h3
    simp [h1, h3]
  · simp only [Bool.and_eq_true, decide_eq_true_eq, not_and] at h2 h3
    constructor
    · intro hfalse; exact absurd hfalse (by simp)
    · rintro ⟨hc, hx | hx⟩
      · exact absurd hx.2 (h2 hx.1)
      · exact absurd hx.2.2 (h3 ⟨hx.2.1, hx.1⟩)

/-- C9.  A line satisfying both the noise predicate and the
transaction-start predicate (and whose tokens map to at least one column,
the engine's own non-empty-row guard) is treated as a transaction start:
any open record is finalized and appended, a new raw record opens from the
line's flat row, and the line is never dropped by the noise branch. -/
theorem c9_start_overrides_noise (L : Layout) (pageHeight : Rat) (st : AccState)
    (t : Token) (ts : List Token)
    (_hnoise : is_line_noise L (lineText (t :: ts)) t.top pageHeight = true)
    (hstart : is_transaction_start L (t :: ts) (lineText (t :: ts)) = true)
    (hassigned : rowAssigned L.columns (t :: ts) = true) :
    processLine L pageHeight st t ts =
      AccState.mk (st.records ++ finalizeOpt L st.current)
        (some (RawRec.mk (flatRow L.columns (t :: ts)) t.top)) := by
  simp [processLine, hstart, hassigned]

/-- C9 (witness).  A concrete HDFC line carrying a leading date and two
noise keywords (`page no`, `hdfc bank`) is both noise and a start, and the
accumulator opens a new record from it instead of dropping it. -/
theorem c9_start_overrides_noise_witness :
    is_line_noise hdfcLayout (lineText (scnNHead :: scnNTail)) scnNHead.top 1000 = true ∧
    is_transaction_start hdfcLayout (scnNHead :: scnNTail) (lineText (scnNHead :: scnNTail)) =
      true ∧
    rowAssigned hdfcLayout.columns (scnNHead :: scnNTail) = true ∧
    processLine hdfcLayout 1000 ⟨[], none⟩ scnNHead scnNTail =
      AccState.mk ([] ++ finalizeOpt hdfcLayout none)
        (some (RawRec.mk (flatRow hdfcLayout.columns (scnNHead :: scnNTail)) scnNHead.top)) :=
  ⟨by with_unfolding_all decide, by with_unfolding_all decide, by with_unfolding_all decide,
   c9_start_overrides_noise hdfcLayout 1000 ⟨[], none⟩ scnNHead scnNTail
     (by with_unfolding_all decide) (by with_unfolding_all decide)
     (by with_unfolding_all decide)⟩

/-- C10.  A line whose top lies strictly inside the header region, whose
joined text contains the case-sensitive substring `Date`, and which is not
a transaction start, is skipped outright before noise classification: the
accumulator state — emitted records and the open record alike — is left
untouched, so nothing is finalized, merged or produced. -/
theorem c10_header_date_line_skipped (L : Layout) (pageHeight : Rat) (st : AccState)
    (t : Token) (ts : List Token)
    (htop : t.top < L.headerYMax)
    (hdate : hasSub (lineText (t :: ts)) (str "Date") = true)
    (hstart : is_transaction_start L (t :: ts) (lineText (t :: ts)) = false) :
    processLine L pageHeight st t ts = st := by
  simp [processLine, htop, hdate, hstart]

/-- C10 (witness).  Scenario A's header line, processed while a record is
open, leaves the accumulator state — including the open record — exactly
unchanged. -/
theorem c10_header_date_line_skipped_witness :
    scnHHead.top < hdfcLayout.headerYMax ∧
    hasSub (lineText (scnHHead :: scnHTail)) (str "Date") = true ∧
    is_transaction_start hdfcLayout (scnHHead :: scnHTail) (lineText (scnHHead :: scnHTail)) =
      false ∧
    processLine hdfcLayout 1000 ⟨[], some scnARaw⟩ scnHHead scnHTail = ⟨[], some scnARaw⟩ :=
  ⟨by with_unfolding_all decide, by with_unfolding_all decide, by with_unfolding_all decide,
   c10_header_date_line_skipped hdfcLayout 1000 ⟨[], some scnARaw⟩ scnHHead scnHTail
     (by with_unfolding_all decide) (by with_unfolding_all decide)
     (by with_unfolding_all decide)⟩

end PdfScraper
